import Mathlib

set_option maxHeartbeats 1000000

namespace Momepy

/-!
Shallow embedding of `momepy/intensity.py` (classes AreaRatio, Count, Courtyards,
BlocksCount, Reached, NodeDensity, Density) and proofs about the claims of the
specification.  Tables are modelled as Lean lists of rows; pandas/NumPy operations
that can raise (`KeyError`, `IndexError`, `TypeError`, `ValueError`) are modelled
in the `Except String` monad.  Numeric values are rationals.
-/

/-- A Python `for` loop over rows that appends one result per row and stops at the
first uncaught exception (modelled as `Except.error`). -/
def mapE {α β : Type} (g : α → Except String β) : List α → Except String (List β)
  | [] => .ok []
  | a :: t =>
    match g a with
    | .error e => .error e
    | .ok b =>
      match mapE g t with
      | .error e => .error e
      | .ok bs => .ok (b :: bs)

/-- A Python `for` loop threading mutable state, stopping at the first exception. -/
def foldE {σ α : Type} (g : σ → α → Except String σ) : σ → List α → Except String σ
  | s, [] => .ok s
  | s, a :: t =>
    match g s a with
    | .error e => .error e
    | .ok s2 => foldE g s2 t

/-! ## AreaRatio -/

/-- A row of either input table of `AreaRatio`, reduced to the two columns the
computation reads: the join key (`left_unique_id` / `right_unique_id` column) and
the area column (after materialization). -/
structure ARRow where
  key : Int
  area : ℚ
deriving DecidableEq

/-- `left[[left_unique_id, left_areas]].merge(look_for, left_on=left_unique_id,
right_on=right_unique_id)`: a pandas inner merge — for each left row, one output
row per right row with an equal key; left rows with no match contribute nothing. -/
def innerMerge (left right : List ARRow) : List (ARRow × ARRow) :=
  left.flatMap (fun l => (right.filter (fun r => r.key == l.key)).map (fun r => (l, r)))

/-- `AreaRatio.__init__`: after the inner merge, the result series is
`objects_merged["lf_area"] / objects_merged[left_areas]`, i.e. covering (right)
area divided by covered (left) area, one entry per merged pair. -/
def areaRatio (left right : List ARRow) : List ℚ :=
  (innerMerge left right).map (fun p => p.2.area / p.1.area)

/-! ## Count -/

/-- Shapely geometry type tags that `Count.__init__` distinguishes via `.type`. -/
inductive GeomType where
  | polygon
  | multipolygon
  | linestring
  | multilinestring
  | point
deriving DecidableEq

/-- A shapely geometry as the code reads it: its type tag and its `area` and
`length` measures. -/
structure Geom where
  type : GeomType
  area : ℚ
  length : ℚ
deriving DecidableEq

/-- `type in ["Polygon", "MultiPolygon"]`. -/
def isPolygonal (t : GeomType) : Bool :=
  t == .polygon || t == .multipolygon

/-- `type in ["LineString", "MultiLineString"]`. -/
def isLinear (t : GeomType) : Bool :=
  t == .linestring || t == .multilinestring

/-- A row of `Count`'s left table reduced to the columns read: the id column
(`left_id`) and the geometry. -/
structure CountRow where
  id : Int
  geometry : Geom
deriving DecidableEq

/-- `collections.Counter(right[right_id])[k]`, with the later
`joined.loc[joined["mm_count"].isna(), "mm_count"] = 0` fill: ids absent from the
counter yield 0. -/
def freq (ids : List Int) (k : Int) : Nat :=
  (ids.filter (fun i => i == k)).length

/-- `Count.__init__`: build the frequency table over `right[right_id]`, left-join
it onto the left table (zero fill), and if `weighted`, divide every row's count by
that row's own area or length — which of the two, and whether a `TypeError` is
raised instead, is decided by `left.geometry[0].type` alone (the first row; a
`KeyError` if the table is empty). -/
def countC (left : List CountRow) (rightIds : List Int) (weighted : Bool) :
    Except String (List ℚ) :=
  let joined : List (ℚ × Geom) := left.map (fun row => ((freq rightIds row.id : ℚ), row.geometry))
  if weighted then
    match left.head? with
    | none => .error "KeyError: 0"
    | some first =>
      if isPolygonal first.geometry.type then
        .ok (joined.map (fun p => p.1 / p.2.area))
      else if isLinear first.geometry.type then
        .ok (joined.map (fun p => p.1 / p.2.length))
      else
        .error "TypeError: Geometry type does not support weighting."
  else
    .ok (joined.map Prod.fst)

/-! ## Courtyards

The geometry work (`joined.geometry.buffer(0.01).unary_union` followed by
`.interiors`) is an external shapely capability; it is abstracted as a function
from the member indices of a component to `Option Nat` — `none` models the
`ValueError` the code catches.  Rows are identified by their position (the
default integer index the code relies on when it indexes
`spatial_weights.component_labels[index]`). -/

/-- A batch of Python dict assignments `courtyards[b] = k` for `b in to_join`. -/
def courtyardsAssign (memo : List (Nat × Nat)) (toJoin : List Nat) (k : Nat) :
    List (Nat × Nat) :=
  toJoin.foldl (fun m b => (b, k) :: m) memo

/-- One iteration of the first `Courtyards` loop.  The state is the `courtyards`
dict together with the current binding of the Python local `interiors` (`none`
before any binding).  When `dissolved.interiors` raises, the handler merely
prints and the following assignment loop runs with the stale binding of
`interiors` — a `NameError` (modelled as `.error`) if it was never bound. -/
def courtyardsStep (labels : List Nat) (interiorsOf : List Nat → Option Nat)
    (st : List (Nat × Nat) × Option Nat) (p : Nat × Nat) :
    Except String (List (Nat × Nat) × Option Nat) :=
  if (st.1.lookup p.1).isSome then .ok st
  else
    let comp := p.2
    let toJoin := (labels.enum.filter (fun q => q.2 == comp)).map Prod.fst
    match interiorsOf toJoin with
    | some k => .ok (courtyardsAssign st.1 toJoin k, some k)
    | none =>
      match st.2 with
      | some k => .ok (courtyardsAssign st.1 toJoin k, some k)
      | none => .error "NameError: name interiors is not defined"

/-- `Courtyards.__init__`: run the memoizing component loop, then copy the dict
values back out in row order (`results_list.append(courtyards[index])`). -/
def courtyards (labels : List Nat) (interiorsOf : List Nat → Option Nat) :
    Except String (List Nat) := do
  let st ← foldE (courtyardsStep labels interiorsOf) ([], none) labels.enum
  mapE (fun i =>
    match st.1.lookup i with
    | some k => .ok k
    | none => .error "KeyError") (List.range labels.length)

/-! ## Column-mapped rows (BlocksCount, NodeDensity, Density)

These components read rows through pandas column lookups whose failure
(`KeyError`) matters, so their rows are modelled as association lists from column
name to rational value, plus the geometry measure accessed through
`.geometry.area` / `.geometry.length`. -/

/-- `row[c]` / `frame[c]` column access; `none` models `KeyError: c`. -/
def getCol (cols : List (String × ℚ)) (c : String) : Option ℚ :=
  cols.lookup c

/-- `set_index(c)` drops the column that becomes the index (pandas default
`drop=True`). -/
def dropCol (cols : List (String × ℚ)) (c : String) : List (String × ℚ) :=
  cols.filter (fun p => p.1 != c)

/-- A row of `BlocksCount`'s (and `Density`'s) table: its attribute columns and
its geometry area. -/
structure BRow where
  cols : List (String × ℚ)
  geomArea : ℚ
deriving DecidableEq

/-- `data = data.set_index(unique_id)`: pair every row with its new index label
(the value of the `unique_id` column, a `KeyError` when absent) and drop that
column from the row. -/
def setIndex (rows : List BRow) (uid : String) : Except String (List (ℚ × BRow)) :=
  mapE (fun r =>
    match getCol r.cols uid with
    | none => .error ("KeyError: " ++ uid)
    | some v => .ok (v, ⟨dropCol r.cols uid, r.geomArea⟩)) rows

/-- `data.loc[list_of_labels]`: for each label in order, every row carrying that
label; a label matching no row raises `KeyError`. -/
def locList (data : List (ℚ × BRow)) (ks : List ℚ) : Except String (List BRow) :=
  (mapE (fun k =>
    match data.filter (fun p => p.1 == k) with
    | [] => .error "KeyError"
    | ms => .ok (ms.map Prod.snd)) ks).map List.flatten

/-- One iteration of the `BlocksCount` loop over `data.iterrows()` (after
`set_index(unique_id)`).  With neighbours, the neighbourhood is neighbours plus
self and the result is the number of distinct block ids (divided by the summed
vicinity area when weighted).  Without neighbours the code evaluates
`row[unique_id]` — but `set_index` dropped that column, so the lookup is a
`KeyError`; had the column survived, `data.loc[scalar]` would return a single row
whose `block_id` entry is a scalar, and `list(scalar)` would raise `TypeError`. -/
def blocksCountRow (data : List (ℚ × BRow)) (blockId uniqueId : String)
    (neighbors : ℚ → List ℚ) (weighted : Bool) (p : ℚ × BRow) : Except String ℚ :=
  let nbrs := neighbors p.1
  if nbrs ≠ [] then do
    let vicinity ← locList data (nbrs ++ [p.1])
    let blocks ← mapE (fun r =>
      match getCol r.cols blockId with
      | none => .error ("KeyError: " ++ blockId)
      | some v => .ok v) vicinity
    if weighted then
      .ok ((blocks.dedup.length : ℚ) / (vicinity.map BRow.geomArea).sum)
    else
      .ok (blocks.dedup.length : ℚ)
  else
    match getCol p.2.cols uniqueId with
    | none => .error ("KeyError: " ++ uniqueId)
    | some _ => .error "TypeError: object is not iterable"

/-- `BlocksCount.__init__` (with `block_id` already a column name; array inputs
are materialized on a copy, see the frame-effect model below). -/
def blocksCount (gdf : List BRow) (blockId : String) (neighbors : ℚ → List ℚ)
    (uniqueId : String) (weighted : Bool) : Except String (List ℚ) := do
  let data ← setIndex gdf uniqueId
  mapE (blocksCountRow data blockId uniqueId neighbors weighted) data

/-! ## Density -/

/-- What `data.loc[x]` returns: a frame (list of rows) for a list of labels, a
single row (a pandas `Series`) for a scalar label on a unique index. -/
inductive LocRes where
  | frame (rows : List BRow)
  | single (row : BRow)
deriving DecidableEq

/-- `data.loc[scalar]`: one matching row yields a `Series`; several (duplicated
index) yield a frame; none raises `KeyError`. -/
def locScalar (data : List (ℚ × BRow)) (k : ℚ) : Except String LocRes :=
  match data.filter (fun p => p.1 == k) with
  | [] => .error "KeyError"
  | [m] => .ok (.single m.2)
  | ms => .ok (.frame (ms.map Prod.snd))

/-- `subset[c]`: a frame's column is a list of values; a single-row `Series`
entry is a scalar. -/
inductive ColRes where
  | list (vals : List ℚ)
  | scalar (v : ℚ)
deriving DecidableEq

/-- Column access on either shape of `subset`. -/
def colOf (s : LocRes) (c : String) : Except String ColRes :=
  match s with
  | .frame rows =>
    (mapE (fun r =>
      match getCol r.cols c with
      | none => .error ("KeyError: " ++ c)
      | some v => .ok v) rows).map .list
  | .single r =>
    match getCol r.cols c with
    | none => .error ("KeyError: " ++ c)
    | some v => .ok (.scalar v)

/-- Python's built-in `sum` applied to a column access result: it iterates a
list, but raises `TypeError` when handed a scalar. -/
def pySum : ColRes → Except String ℚ
  | .list l => .ok l.sum
  | .scalar _ => .error "TypeError: object is not iterable"

/-- Replace an existing column or append a new one (`data[c] = v` on a frame's
column map, per-row value). -/
def upsertCol (cols : List (String × ℚ)) (c : String) (v : ℚ) : List (String × ℚ) :=
  if (cols.lookup c).isSome then cols.map (fun p => if p.1 == c then (c, v) else p)
  else cols ++ [(c, v)]

/-- One iteration of the `Density` loop over `data.iterrows()` (after
`set_index(unique_id)`).  With neighbours, the neighbourhood is neighbours plus
the row's own index label and `data.loc[list]` is a frame; without neighbours the
code sets `neighbours = index` (a scalar), `data.loc[scalar]` is a single-row
`Series`, and `sum(subset[values])` then raises `TypeError` on the scalar entry. -/
def densityRow (data : List (ℚ × BRow)) (values areas : String)
    (neighbors : ℚ → List ℚ) (p : ℚ × BRow) : Except String ℚ := do
  let nbrs := neighbors p.1
  let subset ←
    if nbrs ≠ [] then (locList data (nbrs ++ [p.1])).map LocRes.frame
    else locScalar data p.1
  let valuesList ← colOf subset values
  let areasList ← colOf subset areas
  let sv ← pySum valuesList
  let sa ← pySum areasList
  .ok (sv / sa)

/-- `Density.__init__` (column-name inputs; array inputs are materialized on a
copy, see the frame-effect model).  `areas=None` materializes the geometry area
as the working column `mm_a`; the `self.values` / `self.areas` attribute reads
happen before the loop and raise `KeyError` for a missing column. -/
def density (gdf : List BRow) (values : String) (neighbors : ℚ → List ℚ)
    (uniqueId : String) (areasOpt : Option String) : Except String (List ℚ) := do
  let _valuesAttr ← mapE (fun r =>
    match getCol r.cols values with
    | none => .error ("KeyError: " ++ values)
    | some v => .ok v) gdf
  let data0 :=
    match areasOpt with
    | some _ => gdf
    | none => gdf.map (fun r => ⟨upsertCol r.cols "mm_a" r.geomArea, r.geomArea⟩)
  let areas := areasOpt.getD "mm_a"
  let _areasAttr ← mapE (fun r =>
    match getCol r.cols areas with
    | none => .error ("KeyError: " ++ areas)
    | some v => .ok v) data0
  let data ← setIndex data0 uniqueId
  mapE (densityRow data values areas neighbors) data

/-! ## Reached -/

/-- A NumPy float result: a number, or NaN (what `np.nanmean` / `np.nanstd`
return on an empty selection). -/
inductive RVal where
  | num (q : ℚ)
  | nan
deriving DecidableEq

/-- A row of `Reached`'s right table reduced to the columns read: the network id
(`right_id`), the `values` column, and the geometry area. -/
structure RRow where
  rid : ℚ
  value : ℚ
  area : ℚ
deriving DecidableEq

/-- `collections.Counter(right[right_id])[k]` (a missing key counts 0). -/
def freqQ (ids : List ℚ) (k : ℚ) : Nat :=
  (ids.filter (fun i => i == k)).length

/-- `np.nanmean` over a selection with no NaN entries: NaN when empty. -/
def nanmean (l : List ℚ) : RVal :=
  if l = [] then .nan else .num (l.sum / l.length)

/-- `np.nanstd` over a selection with no NaN entries: NaN when empty, else the
square root of the population variance.  The square root is NumPy's, external
numeric code, abstracted as the supplied function. -/
def nanstd (sqrtFn : ℚ → ℚ) (l : List ℚ) : RVal :=
  if l = [] then .nan
  else
    let m := l.sum / l.length
    .num (sqrtFn ((l.map (fun x => (x - m) ^ 2)).sum / l.length))

/-- The four modes `Reached`'s loop recognizes. -/
def reachedModes : List String := ["count", "sum", "mean", "std"]

/-- `pd.Series(results_list, index=left.index)`: pandas rejects a value list
whose length differs from the index length. -/
def mkSeries {α : Type} (vals : List α) (n : Nat) : Except String (List α) :=
  if vals.length = n then .ok vals
  else .error "ValueError: Length of values does not match length of index"

/-- One iteration of the `Reached` loop, producing the values appended to
`results_list` (one for a recognized mode, none otherwise — no branch matches an
unrecognized mode and the loop silently appends nothing). -/
def reachedRow (left : List ℚ) (right : List RRow) (sw : Option (Nat → List Nat))
    (mode : String) (useValues : Bool) (sqrtFn : ℚ → ℚ) (p : Nat × ℚ) :
    Except String (List RVal) := do
  let ids : List ℚ ←
    match sw with
    | none => .ok [p.2]
    | some f =>
      mapE (fun j =>
        match left.get? j with
        | none => .error "IndexError: positional indexer out-of-bounds"
        | some v => .ok v) (f p.1 ++ [p.1])
  if mode = "count" then
    .ok [.num ((ids.map (fun nid => (freqQ (right.map RRow.rid) nid : ℚ))).sum)]
  else
    let sel := right.filter (fun r => ids.contains r.rid)
    let vals := if useValues then sel.map RRow.value else sel.map RRow.area
    if mode = "sum" then .ok [.num vals.sum]
    else if mode = "mean" then .ok [nanmean vals]
    else if mode = "std" then .ok [nanstd sqrtFn vals]
    else .ok []

/-- `Reached.__init__` (column-name ids; array inputs are materialized on
copies, see the frame-effect model).  `left` is the `left_id` column, `sw` the
optional weights (`None` means the row itself); the final
`pd.Series(results_list, index=left.index)` checks the lengths. -/
def reached (left : List ℚ) (right : List RRow) (sw : Option (Nat → List Nat))
    (mode : String) (useValues : Bool) (sqrtFn : ℚ → ℚ) : Except String (List RVal) := do
  let chunks ← mapE (reachedRow left right sw mode useValues sqrtFn) left.enum
  mkSeries chunks.flatten left.length

/-! ## NodeDensity -/

/-- A row of `NodeDensity`'s edge table: its attribute columns (among them the
start/end node ids) and its geometry length. -/
structure ERow where
  cols : List (String × ℚ)
  geomLength : ℚ
deriving DecidableEq

/-- `right[c]` as a series over the edge table (`KeyError` when absent). -/
def colSeriesE (right : List ERow) (c : String) : Except String (List ℚ) :=
  mapE (fun e =>
    match getCol e.cols c with
    | none => .error ("KeyError: " ++ c)
    | some v => .ok v) right

/-- `left[c]` as a series over the node table (`KeyError` when absent). -/
def colSeriesN (left : List (List (String × ℚ))) (c : String) :
    Except String (List ℚ) :=
  mapE (fun r =>
    match getCol r c with
    | none => .error ("KeyError: " ++ c)
    | some v => .ok v) left

/-- The numerator of one `NodeDensity` row: the neighbourhood size, or — when
weighted — the sum of (node degree − 1) over `left.iloc[neighbours]`. -/
def ndNumber (left : List (List (String × ℚ))) (sw : Nat → List Nat)
    (weighted : Bool) (nodeDegree : String) (i : Nat) : Except String ℚ :=
  let nbrs := sw i ++ [i]
  if weighted then do
    let rows ← mapE (fun j =>
      match left.get? j with
      | none => .error "IndexError: positional indexer out-of-bounds"
      | some r => .ok r) nbrs
    let degs ← mapE (fun r =>
      match getCol r nodeDegree with
      | none => .error ("KeyError: " ++ nodeDegree)
      | some v => .ok v) rows
    .ok ((degs.map (fun d => d - 1)).sum)
  else .ok (nbrs.length : ℚ)

/-- The edge filter of one `NodeDensity` row:
`right.loc[right["node_start"].isin(neighbours)].loc[right["node_end"].isin(neighbours)]`.
The column names here are the string literals from the source — the `node_start`
and `node_end` parameters play no part. -/
def ndEdg (right : List ERow) (nbrs : List Nat) : Except String (List ERow) := do
  let startVals ← colSeriesE right "node_start"
  let endVals ← colSeriesE right "node_end"
  let nbrsQ := nbrs.map (fun j => (j : ℚ))
  .ok (((right.zip (startVals.zip endVals)).filter
    (fun pe => nbrsQ.contains pe.2.1 && nbrsQ.contains pe.2.2)).map Prod.fst)

/-- One iteration of the `NodeDensity` loop: numerator, filtered edges, total
length, and the explicit division-by-zero guard `if length > 0 ... else 0`. -/
def ndRow (left : List (List (String × ℚ))) (right : List ERow) (sw : Nat → List Nat)
    (weighted : Bool) (nodeDegree : String) (i : Nat) : Except String ℚ := do
  let num ← ndNumber left sw weighted nodeDegree i
  let edg ← ndEdg right (sw i ++ [i])
  let len := (edg.map ERow.geomLength).sum
  .ok (if 0 < len then num / len else 0)

/-- What `NodeDensity.__init__` stores: the result series and the attribute
series taken from the `node_start` / `node_end` / `node_degree` parameters. -/
structure NDOut where
  nd : List ℚ
  nodeStartAttr : List ℚ
  nodeEndAttr : List ℚ
  nodeDegreeAttr : Option (List ℚ)
deriving DecidableEq

/-- `if weighted: self.node_degree = left[node_degree]`: the degree attribute
series is extracted only when weighted. -/
def ndDegAttr (left : List (List (String × ℚ))) (weighted : Bool)
    (nodeDegree : String) : Except String (Option (List ℚ)) :=
  if weighted then (colSeriesN left nodeDegree).map some else .ok none

/-- `NodeDensity.__init__`: store the parameter-named attribute series (degree
first, when weighted), then run the per-node loop — whose edge filter reads the
literally-named columns, not the parameters. -/
def nodeDensity (left : List (List (String × ℚ))) (right : List ERow)
    (sw : Nat → List Nat) (weighted : Bool) (nodeDegree nodeStart nodeEnd : String) :
    Except String NDOut := do
  let degAttr ← ndDegAttr left weighted nodeDegree
  let nsAttr ← colSeriesE right nodeStart
  let neAttr ← colSeriesE right nodeEnd
  let nd ← mapE (fun p => ndRow left right sw weighted nodeDegree p.1) left.enum
  .ok ⟨nd, nsAttr, neAttr, degAttr⟩

/-! ## Frame effects of array-parameter materialization

Python variables denote references to DataFrame objects.  `left.copy()` rebinds
the local name to a freshly allocated object, after which `left["mm_a"] = arr`
mutates only that fresh object.  The heap maps object ids to table values;
`alloc` hands out fresh ids.  Each `__init__` below is replayed as its sequence
of table-object operations (copies, in-place column writes, derived-frame
allocations); the claim compares every pre-existing object before and after. -/

/-- A DataFrame object as held on the heap: its named columns. -/
structure PyTable where
  cols : List (String × List ℚ)
deriving DecidableEq

/-- `df[c] = vals`: in-place column write (replace or append). -/
def PyTable.setCol (t : PyTable) (c : String) (vals : List ℚ) : PyTable :=
  if (t.cols.lookup c).isSome then
    ⟨t.cols.map (fun p => if p.1 == c then (c, vals) else p)⟩
  else ⟨t.cols ++ [(c, vals)]⟩

/-- `df[[c, ...]]`: a column selection (a fresh derived frame's contents). -/
def PyTable.selectCols (t : PyTable) (cs : List String) : PyTable :=
  ⟨t.cols.filter (fun p => cs.contains p.1)⟩

/-- `df.rename(columns={old: c2}, inplace=True)`. -/
def PyTable.renameCol (t : PyTable) (old c2 : String) : PyTable :=
  ⟨t.cols.map (fun p => if p.1 == old then (c2, p.2) else p)⟩

/-- `df.set_index(c)`: a fresh frame without the column that became the index. -/
def PyTable.dropColT (t : PyTable) (c : String) : PyTable :=
  ⟨t.cols.filter (fun p => p.1 != c)⟩

/-- The object heap: a fresh-id counter and the allocated table objects. -/
structure Heap where
  next : Nat
  mem : List (Nat × PyTable)

/-- Dereference an object id. -/
def Heap.get (h : Heap) (r : Nat) : Option PyTable :=
  h.mem.lookup r

/-- Overwrite the object behind an id (an in-place DataFrame mutation). -/
def Heap.set (h : Heap) (i : Nat) (t : PyTable) : Heap :=
  ⟨h.next, h.mem.map (fun p => if p.1 == i then (i, t) else p)⟩

/-- Allocate a fresh object (`.copy()`, or any operation returning a new frame). -/
def Heap.alloc (h : Heap) (t : PyTable) : Nat × Heap :=
  (h.next, ⟨h.next + 1, (h.next, t) :: h.mem⟩)

/-- Every allocated id is below the fresh-id counter. -/
def Heap.WF (h : Heap) : Prop :=
  ∀ p ∈ h.mem, p.1 < h.next

/-- `h` evolved from `h0` without touching any object that existed in `h0`. -/
def Heap.Pres (h0 h : Heap) : Prop :=
  h.WF ∧ h0.next ≤ h.next ∧ ∀ r, r < h0.next → h.get r = h0.get r

/-- `AreaRatio.__init__`'s table operations: copy both inputs, materialize array
areas as `mm_a` on the copies, derive `look_for` (a fresh selection) and rename
its area column in place, then derive the merged frame (fresh; its contents are
the subject of `areaRatio` above, irrelevant to aliasing, and left empty here). -/
def areaRatioTables (h : Heap) (leftRef rightRef : Nat)
    (leftAreasIsCol rightAreasIsCol : Bool) (leftArr rightArr : List ℚ)
    (luid ruid la ra : String) : Heap :=
  match h.get leftRef, h.get rightRef with
  | some lt, some rt =>
    let (lcopy, h1) := h.alloc lt
    let (rcopy, h2) := h1.alloc rt
    let h3 := if leftAreasIsCol then h2 else h2.set lcopy (lt.setCol "mm_a" leftArr)
    let h4 := if rightAreasIsCol then h3 else h3.set rcopy (rt.setCol "mm_a" rightArr)
    let la2 := if leftAreasIsCol then la else "mm_a"
    let ra2 := if rightAreasIsCol then ra else "mm_a"
    let rcur := (h4.get rcopy).getD rt
    let (lookFor, h5) := h4.alloc (rcur.selectCols [ruid, ra2])
    let lookCur := (h5.get lookFor).getD rt
    let h6 := h5.set lookFor (lookCur.renameCol ra2 "lf_area")
    let lcur := (h6.get lcopy).getD lt
    let (_leftSel, h7) := h6.alloc (lcur.selectCols [luid, la2])
    let (_merged, h8) := h7.alloc ⟨[]⟩
    h8
  | _, _ => h

/-- `Courtyards.__init__`'s table operations: copy the input, materialize an
array `block_id` as `mm_bid` on the copy. -/
def courtyardsTables (h : Heap) (gdfRef : Nat) (blockIdIsCol : Bool)
    (blockArr : List ℚ) : Heap :=
  match h.get gdfRef with
  | some t =>
    let (gcopy, h1) := h.alloc t
    if blockIdIsCol then h1 else h1.set gcopy (t.setCol "mm_bid" blockArr)
  | none => h

/-- `BlocksCount.__init__`'s table operations: copy the input, materialize an
array `block_id` as `mm_bid` on the copy, then rebind `data` to the fresh frame
`data.set_index(unique_id)`. -/
def blocksCountTables (h : Heap) (gdfRef : Nat) (blockIdIsCol : Bool)
    (blockArr : List ℚ) (uid : String) : Heap :=
  match h.get gdfRef with
  | some t =>
    let (dcopy, h1) := h.alloc t
    let h2 := if blockIdIsCol then h1 else h1.set dcopy (t.setCol "mm_bid" blockArr)
    let dcur := (h2.get dcopy).getD t
    let (_dIndexed, h3) := h2.alloc (dcur.dropColT uid)
    h3
  | none => h

/-- `Reached.__init__`'s table operations: each of `right` and `left` is copied
(and gets its materialized `mm_id` / `mm_lid` column) only when its id parameter
is an array; with a column name the caller's object is used directly, read-only. -/
def reachedTables (h : Heap) (leftRef rightRef : Nat)
    (leftIdIsCol rightIdIsCol : Bool) (leftArr rightArr : List ℚ) : Heap :=
  match h.get leftRef, h.get rightRef with
  | some lt, some rt =>
    let h1 :=
      if rightIdIsCol then h
      else
        let (rc, hh) := h.alloc rt
        hh.set rc (rt.setCol "mm_id" rightArr)
    let h2 :=
      if leftIdIsCol then h1
      else
        let (lc, hh) := h1.alloc lt
        hh.set lc (lt.setCol "mm_lid" leftArr)
    h2
  | _, _ => h

/-- `Density.__init__`'s table operations: copy the input, materialize an array
`values` as `mm_v`, materialize `areas` as `mm_a` (from the array, or from the
geometry areas when `areas=None`), then rebind `data` to the fresh frame
`data.set_index(unique_id)`. -/
def densityTables (h : Heap) (gdfRef : Nat) (valuesIsCol : Bool)
    (valuesArr : List ℚ) (areasIsCol areasNone : Bool) (areasArr geomAreas : List ℚ)
    (uid : String) : Heap :=
  match h.get gdfRef with
  | some t =>
    let (dcopy, h1) := h.alloc t
    let h2 :=
      if valuesIsCol then h1
      else h1.set dcopy (((h1.get dcopy).getD t).setCol "mm_v" valuesArr)
    let h3 :=
      if areasNone then h2.set dcopy (((h2.get dcopy).getD t).setCol "mm_a" geomAreas)
      else if areasIsCol then h2
      else h2.set dcopy (((h2.get dcopy).getD t).setCol "mm_a" areasArr)
    let (_dIndexed, h4) := h3.alloc (((h3.get dcopy).getD t).dropColT uid)
    h4
  | none => h

/-! ## Theorems -/

theorem mapE_ok_length {α β : Type} (g : α → Except String β) :
    ∀ (l : List α) (res : List β), mapE g l = .ok res → res.length = l.length := by
  intro l
  induction l with
  | nil => intro res h; simp [mapE] at h; simp [← h]
  | cons a t ih =>
    intro res h
    simp only [mapE] at h
    cases hga : g a with
    | error e => rw [hga] at h; simp at h
    | ok b =>
      rw [hga] at h
      cases ht : mapE g t with
      | error e => rw [ht] at h; simp at h
      | ok bs =>
        rw [ht] at h; simp at h; subst h; simp [ih bs ht]

theorem mapE_ok_get {α β : Type} (g : α → Except String β) :
    ∀ (l : List α) (res : List β), mapE g l = .ok res →
      ∀ (i : Nat) (hi : i < l.length), ∃ b, res.get? i = some b ∧ g (l.get ⟨i, hi⟩) = .ok b := by
  intro l
  induction l with
  | nil => intro res _ i hi; exact absurd hi (by simp)
  | cons a t ih =>
    intro res h i hi
    simp only [mapE] at h
    cases hga : g a with
    | error e => rw [hga] at h; simp at h
    | ok b =>
      rw [hga] at h
      cases ht : mapE g t with
      | error e => rw [ht] at h; simp at h
      | ok bs =>
        rw [ht] at h; simp at h; subst h
        cases i with
        | zero => exact ⟨b, rfl, hga⟩
        | succ j =>
          have hj : j < t.length := Nat.lt_of_succ_lt_succ hi
          obtain ⟨c, hc1, hc2⟩ := ih bs ht j hj
          exact ⟨c, by simpa using hc1, hc2⟩

theorem mapE_of_forall_ok {α β : Type} (g : α → Except String β) (f : α → β) :
    ∀ (l : List α), (∀ a ∈ l, g a = .ok (f a)) → mapE g l = .ok (l.map f) := by
  intro l
  induction l with
  | nil => intro _; simp [mapE]
  | cons a t ih =>
    intro hall
    have ha : g a = .ok (f a) := hall a (by simp)
    have ht : mapE g t = .ok (t.map f) := ih (fun x hx => hall x (by simp [hx]))
    simp [mapE, ha, ht]

theorem mapE_ok_mem {α β : Type} (g : α → Except String β) :
    ∀ (l : List α) (res : List β), mapE g l = .ok res →
      ∀ b ∈ res, ∃ a ∈ l, g a = .ok b := by
  intro l
  induction l with
  | nil => intro res h b hb; simp [mapE] at h; subst h; simp at hb
  | cons a t ih =>
    intro res h b hb
    simp only [mapE] at h
    cases hga : g a with
    | error e => rw [hga] at h; simp at h
    | ok c =>
      rw [hga] at h
      cases ht : mapE g t with
      | error e => rw [ht] at h; simp at h
      | ok bs =>
        rw [ht] at h; simp at h; subst h
        rcases List.mem_cons.mp hb with hb | hb
        · exact ⟨a, by simp, by rw [hga, hb]⟩
        · obtain ⟨x, hx1, hx2⟩ := ih bs ht b hb
          exact ⟨x, by simp [hx1], hx2⟩

theorem areaRatio_cons (l : ARRow) (left right : List ARRow) :
    areaRatio (l :: left) right =
      ((right.filter (fun r => r.key == l.key)).map (fun r => r.area / l.area))
        ++ areaRatio left right := by
  simp [areaRatio, innerMerge]

/-- Claim C7: AreaRatio joins primary and secondary by an inner merge on the key:
every primary row with a matching secondary row yields the ratio covering area /
covered area (equal to 1 when the areas are equal and nonzero), and a primary row
with no matching secondary row contributes no output row at all — the result over
`l :: left` is exactly the result over `left`, with no error and no missing value. -/
theorem areaRatio_inner_merge_spec :
    (∀ (left right : List ARRow), ∀ l ∈ left, ∀ r ∈ right, r.key = l.key →
        (r.area / l.area) ∈ areaRatio left right) ∧
    (∀ (l r : ARRow), r.key = l.key → r.area = l.area → l.area ≠ 0 →
        r.area / l.area = 1) ∧
    (∀ (l : ARRow) (left right : List ARRow), (∀ r ∈ right, r.key ≠ l.key) →
        areaRatio (l :: left) right = areaRatio left right) := by
  refine ⟨?_, ?_, ?_⟩
  · intro left right l hl r hr hk
    have hmem : (l, r) ∈ innerMerge left right := by
      simp only [innerMerge, List.mem_flatMap]
      refine ⟨l, hl, List.mem_map.mpr ⟨r, List.mem_filter.mpr ⟨hr, ?_⟩, rfl⟩⟩
      simp [hk]
    exact List.mem_map.mpr ⟨(l, r), hmem, rfl⟩
  · intro l r _ harea hne
    rw [harea]
    exact div_self hne
  · intro l left right hnone
    rw [areaRatio_cons]
    have hfil : right.filter (fun r => r.key == l.key) = [] := by
      apply List.filter_eq_nil_iff.mpr
      intro r hr
      simpa using hnone r hr
    simp [hfil]

/-- Witness for C7 at concrete tables: left rows with keys 1 and 2, right row with
key 1 and the same area as its match; the matched pair yields ratio 1, and a right
table with no key matching key 3 leaves the output unchanged when such a row heads
the left table. -/
theorem areaRatio_inner_merge_spec_witness :
    ((⟨1, (4 : ℚ)⟩ : ARRow).area / (⟨1, (4 : ℚ)⟩ : ARRow).area) ∈
        areaRatio [⟨1, 4⟩, ⟨2, 5⟩] [⟨1, 4⟩] ∧
      ((4 : ℚ) / 4 = 1) ∧
      areaRatio [⟨3, 7⟩, ⟨1, 4⟩] [⟨1, 4⟩] = areaRatio [⟨1, 4⟩] [⟨1, 4⟩] := by
  refine ⟨?_, ?_, ?_⟩
  · exact areaRatio_inner_merge_spec.1 [⟨1, 4⟩, ⟨2, 5⟩] [⟨1, 4⟩] ⟨1, 4⟩ (by simp)
      ⟨1, 4⟩ (by simp) rfl
  · exact areaRatio_inner_merge_spec.2.1 ⟨1, (4 : ℚ)⟩ ⟨1, (4 : ℚ)⟩ rfl rfl (by norm_num)
  · exact areaRatio_inner_merge_spec.2.2 ⟨3, 7⟩ [⟨1, 4⟩] [⟨1, 4⟩]
      (by intro r hr; simp at hr; simp [hr])

/-- Claim C9: in `Count` with `weighted=True`, the divisor kind and the
unsupported-geometry error are decided solely by the geometry type of the first
primary row: if the first row is polygonal every row (whatever its own type) is
divided by its own area; if the first row is linear every row is divided by its
own length; the `TypeError` is raised exactly when the first row is neither. -/
theorem countC_weighted_first_row_decides (first : CountRow) (rest : List CountRow)
    (rightIds : List Int) :
    (isPolygonal first.geometry.type = true →
      countC (first :: rest) rightIds true =
        .ok ((first :: rest).map
          (fun row => (freq rightIds row.id : ℚ) / row.geometry.area))) ∧
    (isLinear first.geometry.type = true →
      countC (first :: rest) rightIds true =
        .ok ((first :: rest).map
          (fun row => (freq rightIds row.id : ℚ) / row.geometry.length))) ∧
    (isPolygonal first.geometry.type = false → isLinear first.geometry.type = false →
      countC (first :: rest) rightIds true =
        .error "TypeError: Geometry type does not support weighting.") := by
  refine ⟨?_, ?_, ?_⟩
  · intro hp
    simp [countC, hp]
  · intro hl
    by_cases hp : isPolygonal first.geometry.type = true
    · exfalso
      simp [isPolygonal] at hp
      simp [isLinear] at hl
      rcases hp with hp | hp <;> rcases hl with hl | hl <;> rw [hp] at hl <;> simp at hl
    · simp [countC, hl, hp]
  · intro hp hl
    simp [countC, hp, hl]

/-- Witness for C9: a mixed table whose first row is a polygon of area 2 and whose
second row is a linestring (area field 0, length 3) with one secondary reference
each — both rows are divided by their own *area*, so the linestring row is divided
by 0 (pandas-style, modelled as rational division), proving the weighting is
uniform by the first row's kind and never per-row. -/
theorem countC_weighted_first_row_decides_witness :
    countC [⟨1, ⟨.polygon, 2, 6⟩⟩, ⟨2, ⟨.linestring, 0, 3⟩⟩] [1, 2] true =
      .ok [((1 : ℚ) / 2), ((1 : ℚ) / 0)] := by
  have h := (countC_weighted_first_row_decides ⟨1, ⟨.polygon, 2, 6⟩⟩
    [⟨2, ⟨.linestring, 0, 3⟩⟩] [1, 2]).1 (by rfl)
  rw [h]
  simp [freq]

/-- Claim C2 (divergence): three rows, rows 0 and 1 forming component 0 whose
merged geometry has 2 interior rings, row 2 alone in component 1 whose
interior-ring extraction raises `ValueError`.  The code swallows the failure
(prints and continues) and assigns row 2 the stale count 2 computed for the
*previous* component, completing with `.ok [2, 2, 2]` instead of raising an error
carrying the failing component's identity. -/
theorem courtyards_swallows_failure_stale :
    courtyards [0, 0, 1] (fun tj => if tj = [0, 1] then some 2 else none) =
      .ok [2, 2, 2] := by
  rfl

/-- Claim C3 (divergence): a single row with unique id 1, block id 7 and area 5
and no neighbours.  The claim (and the spec's contract) promises the weighted
result `1 / 5`; the code instead raises `KeyError: uID`, because the no-neighbour
branch reads `row[unique_id]` after `set_index(unique_id)` has dropped that
column. -/
theorem blocksCount_no_neighbors_keyerror :
    blocksCount [⟨[("uID", 1), ("bID", 7)], 5⟩] "bID" (fun _ => []) "uID" true =
      .error "KeyError: uID" := by
  rfl

/-- Claim C4 (divergence): a single row with unique id 1, value 10, geometry area
5 and no neighbours.  The claim (and the spec) promises `10 / 5 = 2.0`; the code
instead raises `TypeError`, because the no-neighbour branch passes the scalar
index to `.loc`, getting a single-row `Series` whose column entry is a scalar,
and `sum(scalar)` is not iterable. -/
theorem density_no_neighbors_typeerror :
    density [⟨[("uID", 1), ("val", 10)], 5⟩] "val" (fun _ => []) "uID" none =
      .error "TypeError: object is not iterable" := by
  rfl

theorem Heap.set_next (h : Heap) (i : Nat) (t : PyTable) : (h.set i t).next = h.next := rfl

theorem Heap.alloc_fst (h : Heap) (t : PyTable) : (h.alloc t).1 = h.next := rfl

theorem Heap.alloc_snd_next (h : Heap) (t : PyTable) : (h.alloc t).2.next = h.next + 1 := rfl

theorem Heap.ite_set_next (c : Bool) (h : Heap) (i : Nat) (t : PyTable) :
    (if c then h else h.set i t).next = h.next := by
  cases c <;> rfl

theorem Heap.ite_set2_next (c1 c2 : Bool) (h : Heap) (i : Nat) (t1 t2 : PyTable) :
    (if c1 then h.set i t1 else if c2 then h else h.set i t2).next = h.next := by
  cases c1 <;> cases c2 <;> rfl

theorem lookup_map_set (r i : Nat) (t : PyTable) :
    ∀ (mem : List (Nat × PyTable)), r ≠ i →
      (mem.map (fun p => if p.1 == i then (i, t) else p)).lookup r = mem.lookup r := by
  intro mem hne
  induction mem with
  | nil => rfl
  | cons p rest ih =>
    rw [List.map_cons]
    by_cases hp : (p.1 == i) = true
    · have hp2 : p.1 = i := by simpa using hp
      have hri : (r == i) = false := by simpa using hne
      have hrp : (r == p.1) = false := by rw [hp2]; exact hri
      rw [if_pos hp]
      simp only [List.lookup, hri, hrp]
      exact ih
    · rw [if_neg hp]
      simp only [List.lookup]
      cases hrp : (r == p.1)
      · simpa using ih
      · rfl

theorem Heap.get_set_ne (h : Heap) (i r : Nat) (t : PyTable) (hne : r ≠ i) :
    (h.set i t).get r = h.get r :=
  lookup_map_set r i t h.mem hne

theorem Heap.WF_set (h : Heap) (i : Nat) (t : PyTable) (hwf : h.WF) : (h.set i t).WF := by
  intro q hq
  simp only [Heap.set, List.mem_map] at hq
  obtain ⟨p, hp, hpe⟩ := hq
  by_cases hc : p.1 == i
  · have : p.1 = i := by simpa using hc
    rw [if_pos hc] at hpe
    have := hwf p hp
    simp [Heap.set, ← hpe]
    omega
  · rw [if_neg hc] at hpe
    subst hpe
    exact hwf p hp

theorem Heap.get_alloc (h : Heap) (t : PyTable) (r : Nat) (hr : r < h.next) :
    (h.alloc t).2.get r = h.get r := by
  have hne : (r == h.next) = false := by simp; omega
  simp [Heap.get, Heap.alloc, List.lookup, hne]

theorem Heap.WF_alloc (h : Heap) (t : PyTable) (hwf : h.WF) : (h.alloc t).2.WF := by
  intro p hp
  rw [Heap.alloc_snd_next]
  simp only [Heap.alloc, List.mem_cons] at hp
  rcases hp with hp | hp
  · subst hp; simp
  · exact Nat.lt_succ_of_lt (hwf p hp)

theorem Heap.Pres_self (h : Heap) (hwf : h.WF) : h.Pres h :=
  ⟨hwf, Nat.le_refl _, fun _ _ => rfl⟩

theorem Heap.Pres_alloc (h0 h : Heap) (t : PyTable) (hp : h0.Pres h) :
    h0.Pres (h.alloc t).2 := by
  obtain ⟨hwf, hle, hpres⟩ := hp
  refine ⟨Heap.WF_alloc h t hwf, ?_, ?_⟩
  · rw [Heap.alloc_snd_next]; omega
  · intro r hr
    rw [Heap.get_alloc h t r (lt_of_lt_of_le hr hle), hpres r hr]

theorem Heap.Pres_set (h0 h : Heap) (i : Nat) (t : PyTable) (hp : h0.Pres h)
    (hi : h0.next ≤ i) : h0.Pres (h.set i t) := by
  obtain ⟨hwf, hle, hpres⟩ := hp
  refine ⟨Heap.WF_set h i t hwf, ?_, ?_⟩
  · rw [Heap.set_next]; omega
  · intro r hr
    rw [Heap.get_set_ne h i r t (by omega), hpres r hr]

theorem Heap.Pres_setIf (h0 : Heap) (c : Bool) (h : Heap) (i : Nat) (t : PyTable)
    (hp : h0.Pres h) (hi : h0.next ≤ i) : h0.Pres (if c then h else h.set i t) := by
  cases c
  · simpa using Heap.Pres_set h0 h i t hp hi
  · simpa using hp

theorem Heap.Pres_setIf2 (h0 : Heap) (c1 c2 : Bool) (h : Heap) (i : Nat)
    (t1 t2 : PyTable) (hp : h0.Pres h) (hi : h0.next ≤ i) :
    h0.Pres (if c1 then h.set i t1 else if c2 then h else h.set i t2) := by
  cases c1
  · simp only [Bool.false_eq_true, if_false]
    exact Heap.Pres_setIf h0 c2 h i t2 hp hi
  · simpa using Heap.Pres_set h0 h i t1 hp hi

theorem areaRatioTables_pres (h : Heap) (hwf : h.WF) (leftRef rightRef : Nat)
    (lb rb : Bool) (la2 ra2 : List ℚ) (luid ruid lan ran : String) :
    h.Pres (areaRatioTables h leftRef rightRef lb rb la2 ra2 luid ruid lan ran) := by
  unfold areaRatioTables
  cases hl : h.get leftRef with
  | none => cases h.get rightRef <;> exact Heap.Pres_self h hwf
  | some lt =>
    cases hr : h.get rightRef with
    | none => exact Heap.Pres_self h hwf
    | some rt =>
      apply Heap.Pres_alloc
      apply Heap.Pres_alloc
      apply Heap.Pres_set
      · apply Heap.Pres_alloc
        apply Heap.Pres_setIf
        · apply Heap.Pres_setIf
          · apply Heap.Pres_alloc
            apply Heap.Pres_alloc
            exact Heap.Pres_self h hwf
          · simp [Heap.alloc]
        · simp [Heap.alloc]
      · simp only [Heap.alloc_fst, Heap.ite_set_next, Heap.alloc_snd_next]
        omega

theorem courtyardsTables_pres (h : Heap) (hwf : h.WF) (gdfRef : Nat) (b : Bool)
    (arr : List ℚ) : h.Pres (courtyardsTables h gdfRef b arr) := by
  unfold courtyardsTables
  cases h.get gdfRef with
  | none => exact Heap.Pres_self h hwf
  | some t =>
    apply Heap.Pres_setIf
    · exact Heap.Pres_alloc h h t (Heap.Pres_self h hwf)
    · simp [Heap.alloc]

theorem blocksCountTables_pres (h : Heap) (hwf : h.WF) (gdfRef : Nat) (b : Bool)
    (arr : List ℚ) (uid : String) : h.Pres (blocksCountTables h gdfRef b arr uid) := by
  unfold blocksCountTables
  cases h.get gdfRef with
  | none => exact Heap.Pres_self h hwf
  | some t =>
    apply Heap.Pres_alloc
    apply Heap.Pres_setIf
    · exact Heap.Pres_alloc h h t (Heap.Pres_self h hwf)
    · simp [Heap.alloc]

theorem reachedTables_pres (h : Heap) (hwf : h.WF) (leftRef rightRef : Nat)
    (lb rb : Bool) (la2 ra2 : List ℚ) :
    h.Pres (reachedTables h leftRef rightRef lb rb la2 ra2) := by
  unfold reachedTables
  cases hl : h.get leftRef with
  | none => cases h.get rightRef <;> exact Heap.Pres_self h hwf
  | some lt =>
    cases hr : h.get rightRef with
    | none => exact Heap.Pres_self h hwf
    | some rt =>
      have h1p : h.Pres (if rb then h
          else ((h.alloc rt).2).set (h.alloc rt).1 (rt.setCol "mm_id" ra2)) := by
        cases rb
        · simp only [Bool.false_eq_true, if_false]
          apply Heap.Pres_set
          · exact Heap.Pres_alloc h h rt (Heap.Pres_self h hwf)
          · simp [Heap.alloc]
        · simpa using Heap.Pres_self h hwf
      have hle := h1p.2.1
      cases lb
      · simp only [Bool.false_eq_true, if_false]
        apply Heap.Pres_set
        · exact Heap.Pres_alloc h _ lt h1p
        · simp only [Heap.alloc_fst] at hle ⊢
          exact hle
      · simpa using h1p

theorem densityTables_pres (h : Heap) (hwf : h.WF) (gdfRef : Nat) (vb ab an : Bool)
    (varr aarr garr : List ℚ) (uid : String) :
    h.Pres (densityTables h gdfRef vb varr ab an aarr garr uid) := by
  unfold densityTables
  cases h.get gdfRef with
  | none => exact Heap.Pres_self h hwf
  | some t =>
    apply Heap.Pres_alloc
    apply Heap.Pres_setIf2
    · apply Heap.Pres_setIf
      · exact Heap.Pres_alloc h h t (Heap.Pres_self h hwf)
      · simp [Heap.alloc]
    · omega

/-- Claim C8: for every component that accepts a raw aligned array for an
identifier, value or area parameter (AreaRatio, Courtyards, BlocksCount,
Reached, Density), the array is materialized as a working column on an internal
copy only: replaying each `__init__`'s table-object operations on the heap
leaves every pre-existing object — in particular the caller's input tables —
exactly as it was, whatever mix of column-name and array parameters is used. -/
theorem materialized_arrays_no_caller_mutation (h : Heap) (hwf : h.WF) :
    (∀ (leftRef rightRef : Nat) (lb rb : Bool) (la2 ra2 : List ℚ)
        (luid ruid lan ran : String) (r : Nat), r < h.next →
      (areaRatioTables h leftRef rightRef lb rb la2 ra2 luid ruid lan ran).get r =
        h.get r) ∧
    (∀ (gdfRef : Nat) (b : Bool) (arr : List ℚ) (r : Nat), r < h.next →
      (courtyardsTables h gdfRef b arr).get r = h.get r) ∧
    (∀ (gdfRef : Nat) (b : Bool) (arr : List ℚ) (uid : String) (r : Nat), r < h.next →
      (blocksCountTables h gdfRef b arr uid).get r = h.get r) ∧
    (∀ (leftRef rightRef : Nat) (lb rb : Bool) (la2 ra2 : List ℚ) (r : Nat), r < h.next →
      (reachedTables h leftRef rightRef lb rb la2 ra2).get r = h.get r) ∧
    (∀ (gdfRef : Nat) (vb ab an : Bool) (varr aarr garr : List ℚ) (uid : String)
        (r : Nat), r < h.next →
      (densityTables h gdfRef vb varr ab an aarr garr uid).get r = h.get r) := by
  refine ⟨?_, ?_, ?_, ?_, ?_⟩
  · intro leftRef rightRef lb rb la2 ra2 luid ruid lan ran r hr
    exact (areaRatioTables_pres h hwf leftRef rightRef lb rb la2 ra2 luid ruid lan ran).2.2 r hr
  · intro gdfRef b arr r hr
    exact (courtyardsTables_pres h hwf gdfRef b arr).2.2 r hr
  · intro gdfRef b arr uid r hr
    exact (blocksCountTables_pres h hwf gdfRef b arr uid).2.2 r hr
  · intro leftRef rightRef lb rb la2 ra2 r hr
    exact (reachedTables_pres h hwf leftRef rightRef lb rb la2 ra2).2.2 r hr
  · intro gdfRef vb ab an varr aarr garr uid r hr
    exact (densityTables_pres h hwf gdfRef vb ab an varr aarr garr uid).2.2 r hr

/-- Witness for C8: a heap with two caller tables (ids 0 and 1); each of the
five components, invoked with raw-array parameters, leaves both caller objects
exactly as they were. -/
theorem materialized_arrays_no_caller_mutation_witness :
    (areaRatioTables ⟨2, [(0, ⟨[("uID", [1]), ("area", [5])]⟩), (1, ⟨[("uID", [1])]⟩)]⟩
        0 1 false false [3] [4] "uID" "uID" "area" "area").get 0 =
      (⟨2, [(0, ⟨[("uID", [1]), ("area", [5])]⟩), (1, ⟨[("uID", [1])]⟩)]⟩ : Heap).get 0 ∧
    (courtyardsTables ⟨2, [(0, ⟨[("uID", [1]), ("area", [5])]⟩), (1, ⟨[("uID", [1])]⟩)]⟩
        0 false [3]).get 0 =
      (⟨2, [(0, ⟨[("uID", [1]), ("area", [5])]⟩), (1, ⟨[("uID", [1])]⟩)]⟩ : Heap).get 0 ∧
    (blocksCountTables ⟨2, [(0, ⟨[("uID", [1]), ("area", [5])]⟩), (1, ⟨[("uID", [1])]⟩)]⟩
        0 false [3] "uID").get 0 =
      (⟨2, [(0, ⟨[("uID", [1]), ("area", [5])]⟩), (1, ⟨[("uID", [1])]⟩)]⟩ : Heap).get 0 ∧
    (reachedTables ⟨2, [(0, ⟨[("uID", [1]), ("area", [5])]⟩), (1, ⟨[("uID", [1])]⟩)]⟩
        0 1 false false [3] [4]).get 1 =
      (⟨2, [(0, ⟨[("uID", [1]), ("area", [5])]⟩), (1, ⟨[("uID", [1])]⟩)]⟩ : Heap).get 1 ∧
    (densityTables ⟨2, [(0, ⟨[("uID", [1]), ("area", [5])]⟩), (1, ⟨[("uID", [1])]⟩)]⟩
        0 false [3] false true [] [5] "uID").get 0 =
      (⟨2, [(0, ⟨[("uID", [1]), ("area", [5])]⟩), (1, ⟨[("uID", [1])]⟩)]⟩ : Heap).get 0 := by
  have hwf : (⟨2, [(0, ⟨[("uID", [1]), ("area", [5])]⟩), (1, ⟨[("uID", [1])]⟩)]⟩ : Heap).WF := by
    intro p hp
    simp only [List.mem_cons, List.not_mem_nil, or_false] at hp
    rcases hp with hp | hp <;> subst hp <;> norm_num
  have h := materialized_arrays_no_caller_mutation
    ⟨2, [(0, ⟨[("uID", [1]), ("area", [5])]⟩), (1, ⟨[("uID", [1])]⟩)]⟩ hwf
  exact ⟨h.1 0 1 false false [3] [4] "uID" "uID" "area" "area" 0 (by norm_num),
    h.2.1 0 false [3] 0 (by norm_num),
    h.2.2.1 0 false [3] "uID" 0 (by norm_num),
    h.2.2.2.1 0 1 false false [3] [4] 1 (by norm_num),
    h.2.2.2.2 0 false false true [3] [] [5] "uID" 0 (by norm_num)⟩

theorem reachedRow_unknown_mode (left : List ℚ) (right : List RRow)
    (sw : Option (Nat → List Nat)) (mode : String) (useValues : Bool) (sqrtFn : ℚ → ℚ)
    (hmode : mode ∉ reachedModes) (p : Nat × ℚ) (c : List RVal)
    (h : reachedRow left right sw mode useValues sqrtFn p = .ok c) : c = [] := by
  have h1 : ¬ mode = "count" := fun he => hmode (by rw [he]; simp [reachedModes])
  have h2 : ¬ mode = "sum" := fun he => hmode (by rw [he]; simp [reachedModes])
  have h3 : ¬ mode = "mean" := fun he => hmode (by rw [he]; simp [reachedModes])
  have h4 : ¬ mode = "std" := fun he => hmode (by rw [he]; simp [reachedModes])
  cases sw with
  | none =>
    unfold reachedRow at h
    simp [Bind.bind, Except.bind, h1, h2, h3, h4] at h
    exact h
  | some f =>
    unfold reachedRow at h
    dsimp only [] at h
    cases hx : mapE (fun j =>
        match left.get? j with
        | none => .error "IndexError: positional indexer out-of-bounds"
        | some v => .ok v) (f p.1 ++ [p.1]) with
    | error e =>
      rw [hx] at h
      simp [Bind.bind, Except.bind] at h
    | ok ids =>
      rw [hx] at h
      simp [Bind.bind, Except.bind, h1, h2, h3, h4] at h
      exact h

theorem reachedRow_none_unknown_mode (left : List ℚ) (right : List RRow)
    (mode : String) (useValues : Bool) (sqrtFn : ℚ → ℚ)
    (h1 : ¬ mode = "count") (h2 : ¬ mode = "sum") (h3 : ¬ mode = "mean")
    (h4 : ¬ mode = "std") (p : Nat × ℚ) :
    reachedRow left right none mode useValues sqrtFn p = .ok [] := by
  unfold reachedRow
  simp [Bind.bind, Except.bind, h1, h2, h3, h4]

/-- Claim C5 (amended): `Reached` performs no validation of `mode`.  With an
unrecognized mode the per-row loop appends nothing, so the call never raises a
configuration error: it completes silently with an empty result exactly when the
primary table is empty, and otherwise (shown here for the no-weights case, where
neighbourhood resolution cannot fail) it fails only at final result-series
construction, with a pandas length-mismatch `ValueError`. -/
theorem reached_unknown_mode_no_validation (left : List ℚ) (right : List RRow)
    (sw : Option (Nat → List Nat)) (mode : String) (useValues : Bool) (sqrtFn : ℚ → ℚ)
    (hmode : mode ∉ reachedModes) :
    (∀ res, reached left right sw mode useValues sqrtFn = .ok res →
      left = [] ∧ res = []) ∧
    (sw = none → left ≠ [] →
      reached left right sw mode useValues sqrtFn =
        .error "ValueError: Length of values does not match length of index") := by
  have h1 : ¬ mode = "count" := fun he => hmode (by rw [he]; simp [reachedModes])
  have h2 : ¬ mode = "sum" := fun he => hmode (by rw [he]; simp [reachedModes])
  have h3 : ¬ mode = "mean" := fun he => hmode (by rw [he]; simp [reachedModes])
  have h4 : ¬ mode = "std" := fun he => hmode (by rw [he]; simp [reachedModes])
  constructor
  · intro res h
    unfold reached at h
    cases hx : mapE (reachedRow left right sw mode useValues sqrtFn) left.enum with
    | error e =>
      rw [hx] at h
      simp [Bind.bind, Except.bind] at h
    | ok chunks =>
      rw [hx] at h
      simp only [Bind.bind, Except.bind] at h
      have hall : ∀ c ∈ chunks, c = [] := by
        intro c hc
        obtain ⟨p, _, hpc⟩ := mapE_ok_mem _ _ _ hx c hc
        exact reachedRow_unknown_mode left right sw mode useValues sqrtFn hmode p c hpc
      have hflat : chunks.flatten = [] := List.flatten_eq_nil_iff.mpr hall
      rw [hflat] at h
      unfold mkSeries at h
      split at h
      · rename_i hc
        simp only [List.length_nil] at hc
        refine ⟨List.eq_nil_of_length_eq_zero hc.symm, ?_⟩
        simpa using h.symm
      · simp at h
  · intro hsw hne
    subst hsw
    have hm : mapE (reachedRow left right none mode useValues sqrtFn) left.enum =
        .ok (left.enum.map (fun _ => [])) :=
      mapE_of_forall_ok _ _ _
        (fun p _ => reachedRow_none_unknown_mode left right mode useValues sqrtFn h1 h2 h3 h4 p)
    unfold reached
    rw [hm]
    simp only [Bind.bind, Except.bind]
    have hflat : (left.enum.map (fun _ => ([] : List RVal))).flatten = [] := by
      simp
    rw [hflat]
    unfold mkSeries
    have hc : ¬ (([] : List RVal).length = left.length) := by
      simp only [List.length_nil]
      intro hh
      exact hne (List.eq_nil_of_length_eq_zero hh.symm)
    rw [if_neg hc]

/-- Witness for the amended C5 at mode `"bogus"`: the empty-table invocation
completes with `.ok []` (first conjunct applied to its own run), and the one-row
invocation fails with the length-mismatch `ValueError` (second conjunct). -/
theorem reached_unknown_mode_no_validation_witness :
    (([] : List ℚ) = [] ∧ ([] : List RVal) = []) ∧
    reached [1] [] none "bogus" false id =
      .error "ValueError: Length of values does not match length of index" := by
  have hm : "bogus" ∉ reachedModes := by simp [reachedModes]
  constructor
  · exact (reached_unknown_mode_no_validation [] [] none "bogus" false id hm).1 [] rfl
  · exact (reached_unknown_mode_no_validation [1] [] none "bogus" false id hm).2 rfl
      (by simp)

/-- Claim C5 (counterexample): with the unrecognized mode `"bogus"`, `Reached`
raises no configuration error at the point of misconfiguration: over an empty
primary table it completes silently with an empty series, and over a one-row
primary table it fails only later, at result-series construction, with a pandas
length-mismatch `ValueError` — an unrelated reason. -/
theorem reached_unknown_mode_counterexample :
    reached [] [] none "bogus" false id = .ok [] ∧
    reached [1] [] none "bogus" false id =
      .error "ValueError: Length of values does not match length of index" := by
  constructor <;> rfl

theorem bind_ok_inv {α β : Type} (x : Except String α) (g : α → Except String β)
    (b : β) (h : (x >>= g) = .ok b) : ∃ a, x = .ok a ∧ g a = .ok b := by
  cases x with
  | error e => simp [Bind.bind, Except.bind] at h
  | ok a => exact ⟨a, rfl, by simpa [Bind.bind, Except.bind] using h⟩

/-- Claim C6: whenever `NodeDensity` completes, each row's result obeys the
explicit division guard: the value is the numerator divided by the total length
of the edges with both endpoints in the neighbourhood when that length is
positive, and exactly 0 otherwise — in particular 0 (not NaN, not an exception)
whenever no edge has both endpoints inside the neighbourhood. -/
theorem nodeDensity_zero_denominator_guard (left : List (List (String × ℚ)))
    (right : List ERow) (sw : Nat → List Nat) (weighted : Bool)
    (nodeDegree nodeStart nodeEnd : String) (out : NDOut)
    (h : nodeDensity left right sw weighted nodeDegree nodeStart nodeEnd = .ok out)
    (i : Nat) (hi : i < left.length) :
    ∃ num edg, ndNumber left sw weighted nodeDegree i = .ok num ∧
      ndEdg right (sw i ++ [i]) = .ok edg ∧
      out.nd.get? i =
        some (if 0 < (edg.map ERow.geomLength).sum
          then num / (edg.map ERow.geomLength).sum else 0) ∧
      (edg = [] → out.nd.get? i = some 0) := by
  unfold nodeDensity at h
  obtain ⟨degAttr, _, h⟩ := bind_ok_inv _ _ _ h
  obtain ⟨nsAttr, _, h⟩ := bind_ok_inv _ _ _ h
  obtain ⟨neAttr, _, h⟩ := bind_ok_inv _ _ _ h
  obtain ⟨nd, hnd, h⟩ := bind_ok_inv _ _ _ h
  have hout : out.nd = nd := by
    simp only [Except.ok.injEq] at h
    rw [← h]
  have hi2 : i < left.enum.length := by rw [List.enum_length]; exact hi
  obtain ⟨b, hb1, hb2⟩ := mapE_ok_get _ _ _ hnd i hi2
  have henum : (left.enum.get ⟨i, hi2⟩).1 = i := by
    simp [List.get_eq_getElem, List.getElem_enum]
  rw [henum] at hb2
  unfold ndRow at hb2
  obtain ⟨num, hnum, hb2⟩ := bind_ok_inv _ _ _ hb2
  obtain ⟨edg, hedg, hb2⟩ := bind_ok_inv _ _ _ hb2
  have hb : b = if 0 < (edg.map ERow.geomLength).sum
      then num / (edg.map ERow.geomLength).sum else 0 := by
    simp only [Except.ok.injEq] at hb2
    rw [← hb2]
  refine ⟨num, edg, hnum, hedg, ?_, ?_⟩
  · rw [hout, hb1, hb]
  · intro hnil
    rw [hout, hb1, hb, hnil]
    simp

/-- Witness for C6: a single node with no neighbours and an empty edge table —
the neighbourhood contains no edge, the denominator is 0, and the stored result
for the node is exactly 0. -/
theorem nodeDensity_zero_denominator_guard_witness :
    ∃ num edg, ndNumber [[]] (fun _ => []) false "deg" 0 = .ok num ∧
      ndEdg [] [0] = .ok edg ∧
      (NDOut.mk [0] [] [] none).nd.get? 0 =
        some (if 0 < (edg.map ERow.geomLength).sum
          then num / (edg.map ERow.geomLength).sum else 0) ∧
      (edg = [] → (NDOut.mk [0] [] [] none).nd.get? 0 = some 0) :=
  nodeDensity_zero_denominator_guard [[]] [] (fun _ => []) false "deg" "node_start"
    "node_end" ⟨[0], [], [], none⟩ rfl 0 (by norm_num)

/-- Claim C10: `NodeDensity`'s edge filter reads the columns literally named
`node_start` and `node_end`, never the `node_start` / `node_end` parameters:
whenever the parameter-named columns can be extracted (for the stored attribute
series), the computed result series is identical whatever the parameters are. -/
theorem nodeDensity_edge_filter_ignores_params (left : List (List (String × ℚ)))
    (right : List ERow) (sw : Nat → List Nat) (weighted : Bool)
    (nodeDegree ns ne ns2 ne2 : String) (a b c d : List ℚ)
    (h1 : colSeriesE right ns = .ok a) (h2 : colSeriesE right ne = .ok b)
    (h3 : colSeriesE right ns2 = .ok c) (h4 : colSeriesE right ne2 = .ok d) :
    (nodeDensity left right sw weighted nodeDegree ns ne).map NDOut.nd =
      (nodeDensity left right sw weighted nodeDegree ns2 ne2).map NDOut.nd := by
  unfold nodeDensity
  cases hdeg : ndDegAttr left weighted nodeDegree with
  | error e =>
    simp [Bind.bind, Except.bind, Except.map]
  | ok degAttr =>
    simp only [Bind.bind, Except.bind, h1, h2, h3, h4]
    cases hnd : mapE (fun p => ndRow left right sw weighted nodeDegree p.1) left.enum with
    | error e => simp [hnd, Except.map]
    | ok nd => simp [hnd, Except.map]

/-- Witness for C10: one node, one edge carrying columns `node_start`,
`node_end`, `s2`, `e2` — invoking with parameters `s2`/`e2` yields the same
result series as invoking with `node_start`/`node_end`. -/
theorem nodeDensity_edge_filter_ignores_params_witness :
    (nodeDensity [[("deg", 3)]]
        [⟨[("node_start", 0), ("node_end", 0), ("s2", 0), ("e2", 0)], 7⟩]
        (fun _ => []) false "deg" "s2" "e2").map NDOut.nd =
      (nodeDensity [[("deg", 3)]]
        [⟨[("node_start", 0), ("node_end", 0), ("s2", 0), ("e2", 0)], 7⟩]
        (fun _ => []) false "deg" "node_start" "node_end").map NDOut.nd :=
  nodeDensity_edge_filter_ignores_params _ _ _ _ _ "s2" "e2" "node_start" "node_end"
    [0] [0] [0] [0] rfl rfl rfl rfl

theorem countC_ok_length (left : List CountRow) (rightIds : List Int) (w : Bool)
    (res : List ℚ) (h : countC left rightIds w = .ok res) : res.length = left.length := by
  unfold countC at h
  split at h
  · split at h
    · simp at h
    · split at h
      · simp only [Except.ok.injEq] at h
        rw [← h]; simp
      · split at h
        · simp only [Except.ok.injEq] at h
          rw [← h]; simp
        · simp at h
  · simp only [Except.ok.injEq] at h
    rw [← h]; simp

theorem countC_unweighted_eq (left : List CountRow) (rightIds : List Int) :
    countC left rightIds false = .ok (left.map (fun row => (freq rightIds row.id : ℚ))) := by
  unfold countC
  simp [List.map_map, Function.comp]

theorem courtyards_ok_length (labels : List Nat) (f : List Nat → Option Nat)
    (res : List Nat) (h : courtyards labels f = .ok res) : res.length = labels.length := by
  unfold courtyards at h
  obtain ⟨st, _, h⟩ := bind_ok_inv _ _ _ h
  have hlen := mapE_ok_length _ _ _ h
  simpa using hlen

theorem blocksCount_ok_length (gdf : List BRow) (blockId : String)
    (neighbors : ℚ → List ℚ) (uniqueId : String) (w : Bool) (res : List ℚ)
    (h : blocksCount gdf blockId neighbors uniqueId w = .ok res) :
    res.length = gdf.length := by
  unfold blocksCount at h
  obtain ⟨data, hdata, h⟩ := bind_ok_inv _ _ _ h
  unfold setIndex at hdata
  have h1 := mapE_ok_length _ _ _ hdata
  have h2 := mapE_ok_length _ _ _ h
  rw [h2, h1]

theorem reached_ok_length (left : List ℚ) (right : List RRow)
    (sw : Option (Nat → List Nat)) (mode : String) (useValues : Bool)
    (sqrtFn : ℚ → ℚ) (res : List RVal)
    (h : reached left right sw mode useValues sqrtFn = .ok res) :
    res.length = left.length := by
  unfold reached at h
  obtain ⟨chunks, _, h⟩ := bind_ok_inv _ _ _ h
  unfold mkSeries at h
  split at h
  · rename_i hc
    simp only [Except.ok.injEq] at h
    rw [← h]
    exact hc
  · simp at h

theorem nodeDensity_ok_length (left : List (List (String × ℚ))) (right : List ERow)
    (sw : Nat → List Nat) (weighted : Bool) (nodeDegree nodeStart nodeEnd : String)
    (out : NDOut)
    (h : nodeDensity left right sw weighted nodeDegree nodeStart nodeEnd = .ok out) :
    out.nd.length = left.length := by
  unfold nodeDensity at h
  obtain ⟨degAttr, _, h⟩ := bind_ok_inv _ _ _ h
  obtain ⟨nsAttr, _, h⟩ := bind_ok_inv _ _ _ h
  obtain ⟨neAttr, _, h⟩ := bind_ok_inv _ _ _ h
  obtain ⟨nd, hnd, h⟩ := bind_ok_inv _ _ _ h
  have h1 := mapE_ok_length _ _ _ hnd
  simp only [Except.ok.injEq] at h
  rw [← h]
  simpa using h1

theorem density_ok_length (gdf : List BRow) (values : String)
    (neighbors : ℚ → List ℚ) (uniqueId : String) (areasOpt : Option String)
    (res : List ℚ) (h : density gdf values neighbors uniqueId areasOpt = .ok res) :
    res.length = gdf.length := by
  unfold density at h
  obtain ⟨va, _, h⟩ := bind_ok_inv _ _ _ h
  obtain ⟨aa, _, h⟩ := bind_ok_inv _ _ _ h
  obtain ⟨data, hdata, h⟩ := bind_ok_inv _ _ _ h
  unfold setIndex at hdata
  have h1 := mapE_ok_length _ _ _ hdata
  have h2 := mapE_ok_length _ _ _ h
  rw [h2, h1]
  cases areasOpt <;> simp

theorem areaRatio_length_matches (left right : List ARRow) :
    (areaRatio left right).length =
      (left.map (fun l => (right.filter (fun r => r.key == l.key)).length)).sum := by
  induction left with
  | nil => rfl
  | cons l rest ih =>
    rw [areaRatio_cons]
    simp [ih]

/-- Claim C1 (counterexample): AreaRatio violates row alignment — with one
primary row (key 1, area 2) and an empty secondary table, the inner merge drops
the unmatched primary row: the result series is empty rather than of the primary
table's length 1 (and the dropped row corresponds to no output position). -/
theorem areaRatio_breaks_row_alignment :
    (areaRatio [⟨1, 2⟩] []).length ≠ ([⟨1, 2⟩] : List ARRow).length := by
  decide

/-- Claim C1 (amended): every component except AreaRatio preserves the primary
table's row cardinality and order — whenever the computation completes, the
result series has exactly one entry per primary row, appended by the single
per-row pass in row order (shown concretely for unweighted Count, whose series
is literally the row-wise map of the frequency lookup).  AreaRatio does not:
its inner merge emits one output row per matched (primary, secondary) key pair,
so its output length is the total match count — unmatched primary rows are
dropped and row alignment with the primary table is not guaranteed. -/
theorem intensity_row_alignment :
    (∀ (left : List CountRow) (rightIds : List Int) (w : Bool) (res : List ℚ),
      countC left rightIds w = .ok res → res.length = left.length) ∧
    (∀ (left : List CountRow) (rightIds : List Int),
      countC left rightIds false =
        .ok (left.map (fun row => (freq rightIds row.id : ℚ)))) ∧
    (∀ (labels : List Nat) (f : List Nat → Option Nat) (res : List Nat),
      courtyards labels f = .ok res → res.length = labels.length) ∧
    (∀ (gdf : List BRow) (blockId : String) (neighbors : ℚ → List ℚ)
        (uniqueId : String) (w : Bool) (res : List ℚ),
      blocksCount gdf blockId neighbors uniqueId w = .ok res →
        res.length = gdf.length) ∧
    (∀ (left : List ℚ) (right : List RRow) (sw : Option (Nat → List Nat))
        (mode : String) (useValues : Bool) (sqrtFn : ℚ → ℚ) (res : List RVal),
      reached left right sw mode useValues sqrtFn = .ok res →
        res.length = left.length) ∧
    (∀ (left : List (List (String × ℚ))) (right : List ERow) (sw : Nat → List Nat)
        (weighted : Bool) (nodeDegree nodeStart nodeEnd : String) (out : NDOut),
      nodeDensity left right sw weighted nodeDegree nodeStart nodeEnd = .ok out →
        out.nd.length = left.length) ∧
    (∀ (gdf : List BRow) (values : String) (neighbors : ℚ → List ℚ)
        (uniqueId : String) (areasOpt : Option String) (res : List ℚ),
      density gdf values neighbors uniqueId areasOpt = .ok res →
        res.length = gdf.length) ∧
    (∀ (left right : List ARRow),
      (areaRatio left right).length =
        (left.map (fun l => (right.filter (fun r => r.key == l.key)).length)).sum) :=
  ⟨countC_ok_length, countC_unweighted_eq, courtyards_ok_length, blocksCount_ok_length,
    reached_ok_length, nodeDensity_ok_length, density_ok_length, areaRatio_length_matches⟩

/-- Witness for the amended C1: a successful concrete run of each component with
a neighbourhood structure, each yielding a result series of the primary table's
length. -/
theorem intensity_row_alignment_witness :
    (∃ res, countC [⟨1, ⟨.polygon, 2, 6⟩⟩] [] false = .ok res ∧
      res.length = [(⟨1, ⟨.polygon, 2, 6⟩⟩ : CountRow)].length) ∧
    (∃ res, courtyards [0] (fun _ => some 1) = .ok res ∧ res.length = [0].length) ∧
    (∃ res, blocksCount
        [⟨[("uID", 1), ("bID", 7)], 5⟩, ⟨[("uID", 2), ("bID", 7)], 5⟩] "bID"
        (fun k => if k == 1 then [2] else [1]) "uID" false = .ok res ∧
      res.length = 2) ∧
    (∃ res, reached [1] [] none "count" false id = .ok res ∧ res.length = 1) ∧
    (∃ out, nodeDensity [[]] [] (fun _ => []) false "deg" "node_start" "node_end" =
        .ok out ∧ out.nd.length = 1) ∧
    (∃ res, density [⟨[("uID", 1), ("val", 10)], 5⟩, ⟨[("uID", 2), ("val", 20)], 5⟩]
        "val" (fun k => if k == 1 then [2] else [1]) "uID" none = .ok res ∧
      res.length = 2) := by
  refine ⟨⟨_, rfl, ?_⟩, ⟨_, rfl, ?_⟩, ⟨_, rfl, ?_⟩, ⟨_, rfl, ?_⟩, ⟨_, rfl, ?_⟩,
    ⟨_, rfl, ?_⟩⟩
  · exact intensity_row_alignment.1 [⟨1, ⟨.polygon, 2, 6⟩⟩] [] false _ rfl
  · exact intensity_row_alignment.2.2.1 [0] (fun _ => some 1) _ rfl
  · exact intensity_row_alignment.2.2.2.1
      [⟨[("uID", 1), ("bID", 7)], 5⟩, ⟨[("uID", 2), ("bID", 7)], 5⟩] "bID"
      (fun k => if k == 1 then [2] else [1]) "uID" false _ rfl
  · exact intensity_row_alignment.2.2.2.2.1 [1] [] none "count" false id _ rfl
  · exact intensity_row_alignment.2.2.2.2.2.1 [[]] [] (fun _ => []) false "deg"
      "node_start" "node_end" _ rfl
  · exact intensity_row_alignment.2.2.2.2.2.2.1
      [⟨[("uID", 1), ("val", 10)], 5⟩, ⟨[("uID", 2), ("val", 20)], 5⟩] "val"
      (fun k => if k == 1 then [2] else [1]) "uID" none _ rfl

end Momepy
